import Mathlib

/-!
Verification of the Aurelia reactive binding core against its specification.

This file shallowly embeds, in Lean 4:
  * `PropertyBinding` (src/unnamed/part_000): `updateTarget`, `updateSource`,
    `handleChange`, `$bind`, `$unbind`, including the `$state` bit flags
    (isBinding = 1, isUnbinding = 2, isBound = 4), the `LifecycleFlags`
    numeric constants that appear literally in the source
    (updateTargetInstance = 16, updateSourceExpression = 32,
    isStrictBindingStrategy = 4, fromBind = 4096,
    persistentBindingFlags = 2080374799), and the binding-mode bit tests.
  * `CollectionLengthObserver.setValue` (src/unnamed/part_001).
  * `resolveAll` (src/packages/router/src/util.ts).

JavaScript mutable objects become explicit state passing: every method returns
the list of externally visible calls it made (an event trace) together with the
updated state.  JavaScript bit operations on non-negative 32-bit values are
`Nat` operations; `x & ~m` is written `jsAndNot x m` (an AND against the
32-bit complement of the mask).  Scopes are identified by `Nat` ids and
compared with `=`, matching the `===` identity comparison of the source.
Values flowing through bindings are `Nat`, with `≠` standing for `!==`.
-/

namespace Aurelia


/-- JavaScript `x & ~m` for non-negative 32-bit `x` and mask `m`:
AND with the 32-bit complement of `m`. -/
def jsAndNot (x m : Nat) : Nat := x &&& (4294967295 ^^^ m)

/-- Modelled from the spec: the numeric values of `BindingMode`
(`oneTime`, `toView`, `fromView`, with two-way their union), which the
source file destructures from an enum that is not part of src/.  The source
relies only on these being distinct single bits combined with `|` and tested
with `&`; `toViewOrOneTime = toView | oneTime` as in the source. -/
def BindingMode.oneTime : Nat := 1

/-- `BindingMode.toView` bit. -/
def BindingMode.toView : Nat := 2

/-- `BindingMode.fromView` bit. -/
def BindingMode.fromView : Nat := 4

/-- `toViewOrOneTime = toView | oneTime` (pre-combined in the source). -/
def toViewOrOneTime : Nat := BindingMode.toView ||| BindingMode.oneTime

/-- An externally visible call made by a `PropertyBinding` method. -/
inductive Ev where
  /-- `this.interceptor.updateTarget(value, flags)` → `targetObserver.setValue`. -/
  | updateTarget (value flags : Nat)
  /-- `this.interceptor.updateSource(value, flags)` → `sourceExpression.assign`. -/
  | updateSource (value flags : Nat)
  /-- `sourceExpression.evaluate(...)`. -/
  | evalSource
  /-- `sourceExpression.connect(...)`. -/
  | connectSource
  /-- `sourceExpression.bind(...)` (when `hasBind`). -/
  | exprBind
  /-- `sourceExpression.unbind(...)` (when `hasUnbind`). -/
  | exprUnbind
  /-- `targetObserver.bind(flags)`. -/
  | obsBind
  /-- `targetObserver.unbind(flags)`. -/
  | obsUnbind
  /-- `targetObserver.subscribe(this.interceptor)`. -/
  | subscribeTarget
  /-- `targetObserver.unsubscribe(this.interceptor)`. -/
  | unsubscribeTarget
  /-- `this.interceptor.unobserve(all)`. -/
  | unobserve (all : Bool)
deriving DecidableEq, Repr

/-- The source expression (`sourceExpression`, an AST node external to
part_000).  Its behaviour is what the binding observes through
`evaluate`/`connect`/`$kind`/`hasBind`/`hasUnbind`: `eval` is the value of
`evaluate(flags, scope, locator, part)` and `deps` the observers that
`connect(flags, scope, connectable, part)` would register, both as functions
of the flags and scope the binding passes in. -/
structure Expr where
  /-- `$kind`; `10082` is the `AccessScope` kind tested in `handleChange`. -/
  kind : Nat
  eval : Nat → Option Nat → Nat
  deps : Nat → Option Nat → List Nat
  hasBind : Bool
  hasUnbind : Bool

/-- The target observer / accessor held in `this.targetObserver`.
`currentValue` backs `getValue()`/`setValue()`; `hasBindM`, `hasUnbindM` and
`hasSubscribe` record which optional methods the object has (the source
guards `targetObserver.bind`, `.unbind` and `.unsubscribe` with truthiness
checks); `subscribed` records whether the binding's interceptor is currently
subscribed; `idFlags` is the `targetObserver[this.id]` bit field. -/
structure TargetObs where
  currentValue : Nat
  hasBindM : Bool
  hasUnbindM : Bool
  hasSubscribe : Bool
  subscribed : Bool
  idFlags : Nat
deriving DecidableEq, Repr

/-- Modelled from the spec: the `connectable` observer-slot record
(`addObserver`), which is not in src/.  Per the spec's dependency-tracking
discipline, connecting registers each observer stamped with the binding's
current `version`; an observer already present is re-stamped, a new one is
appended.  `obs` is the slot list as (observer id, version stamp) pairs. -/
def addObserver (ver : Nat) (obs : List (Nat × Nat)) (d : Nat) : List (Nat × Nat) :=
  if d ∈ obs.map Prod.fst then
    obs.map (fun p => if p.1 = d then (p.1, ver) else p)
  else obs ++ [(d, ver)]

/-- Modelled from the spec: `unobserve(all)` of `connectable` (not in src/).
With `all = true` every slot is released; with `all = false` only stale
slots — those whose stamp differs from the current `version` — are dropped,
so the slots reflect exactly the observers of the latest `connect`. -/
def unobserveSlots (all : Bool) (ver : Nat) (obs : List (Nat × Nat)) : List (Nat × Nat) :=
  if all then [] else obs.filter (fun p => p.2 == ver)

/-- The mutable state of a `PropertyBinding` together with its fixed
constructor arguments.  `locObserver`/`locAccessor` are the (per
(object, property) deduplicated) results `observerLocator.getObserver` /
`getAccessor` would return for this binding's target.  `observers` with
`version` is the connectable slot state; `observers.length` plays the role
of `observerSlots`. -/
structure Binding where
  sourceExpression : Expr
  mode : Nat
  locObserver : TargetObs
  locAccessor : TargetObs
  /-- `$state` bit flags: isBinding = 1, isUnbinding = 2, isBound = 4. -/
  state : Nat
  /-- `$scope` (`undefined` is `none`); scopes are identified by `Nat` ids. -/
  scope : Option Nat
  part : Option Nat
  targetObserver : Option TargetObs
  persistentFlags : Nat
  version : Nat
  observers : List (Nat × Nat)

/-- A freshly constructed `PropertyBinding`: `$state = 0`, `$scope`,
`targetObserver` undefined, `persistentFlags = 0`, no observer slots. -/
def Binding.init (e : Expr) (mode : Nat) (locO locA : TargetObs) : Binding :=
  { sourceExpression := e, mode := mode, locObserver := locO, locAccessor := locA,
    state := 0, scope := none, part := none, targetObserver := none,
    persistentFlags := 0, version := 0, observers := [] }

/-- `updateTarget(value, flags)`: OR in the persistent flags and call
`targetObserver.setValue(value, flags)` (which stores the value). -/
def Binding.updateTarget (b : Binding) (value flags : Nat) : List Ev × Binding :=
  let f := flags ||| b.persistentFlags
  match b.targetObserver with
  | some tob =>
      ([Ev.updateTarget value f],
       { b with targetObserver := some { tob with currentValue := value } })
  | none => ([Ev.updateTarget value f], b)

/-- `sourceExpression.connect(flags, scope, interceptor, part)` as seen by the
binding: every dependency of the current evaluation is registered through
`addObserver` at the current version. -/
def Binding.connectExpr (b : Binding) (flags : Nat) (scope : Option Nat) : Binding :=
  { b with observers :=
      (b.sourceExpression.deps flags scope).foldl (addObserver b.version) b.observers }

/-- `handleChange(newValue, _previousValue, flags)`.  Returns the event trace
and the updated binding, or `Except.error 15` for the final
`throw Reporter.error(15, flags)`; `Except.error 0` stands for the TypeError
JavaScript would raise reading `this.targetObserver.getValue` while
`targetObserver` is undefined (unreachable from a bound binding). -/
def Binding.handleChange (b : Binding) (newValue _previousValue flags0 : Nat) :
    Except Nat (List Ev × Binding) :=
  if b.state &&& 4 = 0 then
    Except.ok ([], b)
  else
    let flags := flags0 ||| b.persistentFlags
    if flags &&& 16 > 0 then
      match b.targetObserver with
      | none => Except.error 0
      | some tob =>
        let previousValue := tob.currentValue
        let (t1, newValue1) :=
          if b.sourceExpression.kind ≠ 10082 ∨ b.observers.length > 1 then
            ([Ev.evalSource], b.sourceExpression.eval flags b.scope)
          else ([], newValue)
        let (t2, b2) :=
          if newValue1 ≠ previousValue then b.updateTarget newValue1 flags
          else ([], b)
        let (t3, b3) :=
          if b.mode &&& BindingMode.oneTime = 0 then
            let bv : Binding := { b2 with version := b2.version + 1 }
            let bc := bv.connectExpr flags b.scope
            ([Ev.connectSource, Ev.unobserve false],
             { bc with observers := unobserveSlots false bc.version bc.observers })
          else ([], b2)
        Except.ok (t1 ++ t2 ++ t3, b3)
    else if flags &&& 32 > 0 then
      let v := b.sourceExpression.eval flags b.scope
      if newValue ≠ v then
        Except.ok ([Ev.evalSource, Ev.updateSource newValue (flags ||| b.persistentFlags)], b)
      else Except.ok ([Ev.evalSource], b)
    else Except.error 15

/-- `$unbind(flags)`.  When `targetObserver` is undefined while bound
(unreachable through `$bind`), JavaScript throws reading `.unbind` of
undefined; the returned state is then exactly the state at the throw point. -/
def Binding.unbind (b : Binding) (_flags : Nat) : List Ev × Binding :=
  if b.state &&& 4 = 0 then
    ([], b)
  else
    let b1 : Binding := { b with state := b.state ||| 2, persistentFlags := 0 }
    let t1 := if b1.sourceExpression.hasUnbind then [Ev.exprUnbind] else []
    let b2 : Binding := { b1 with scope := none }
    match b2.targetObserver with
    | none => (t1, b2)
    | some tob =>
      let t2 := if tob.hasUnbindM then [Ev.obsUnbind] else []
      let (t3, tob3) :=
        if tob.hasSubscribe then
          ([Ev.unsubscribeTarget],
           { tob with subscribed := false, idFlags := jsAndNot tob.idFlags 32 })
        else ([], tob)
      let b3 : Binding :=
        { b2 with targetObserver := some tob3,
                  observers := unobserveSlots true b2.version b2.observers }
      (t1 ++ t2 ++ t3 ++ [Ev.unobserve true], { b3 with state := jsAndNot b3.state 6 })

/-- The body of `$bind` past the already-bound guard: set isBinding, force
the strict-binding-strategy flag, store the persistent flags, scope and
part, bind the expression when it has `bind`, obtain the target observer
(a real observer when the mode has `fromView`, an accessor otherwise),
call `targetObserver.bind` unless the mode is exactly `oneTime`, evaluate
and write the target when the mode has `toView` or `oneTime`, connect when
it has `toView`, subscribe to the target when it has `fromView`, finally
set isBound and clear isBinding. -/
def Binding.bindCore (b0 : Binding) (flags0 scope : Nat) (part : Option Nat) :
    List Ev × Binding :=
  let b1 : Binding := { b0 with state := b0.state ||| 1 }
  let flags := flags0 ||| 4
  let b2 : Binding :=
    { b1 with persistentFlags := flags &&& 2080374799,
              scope := some scope, part := part }
  let t1 := if b2.sourceExpression.hasBind then [Ev.exprBind] else []
  let b3 : Binding :=
    match b2.targetObserver with
    | some _ => b2
    | none =>
        let tnew :=
          if b2.mode &&& BindingMode.fromView ≠ 0 then b2.locObserver
          else b2.locAccessor
        { b2 with targetObserver := some tnew }
  let tob := b3.targetObserver.getD b3.locAccessor
  let t2 := if b3.mode ≠ BindingMode.oneTime ∧ tob.hasBindM then [Ev.obsBind] else []
  let (t3, b4) :=
    if b3.mode &&& toViewOrOneTime ≠ 0 then
      let v := b3.sourceExpression.eval flags (some scope)
      let (tu, bu) := b3.updateTarget v flags
      (Ev.evalSource :: tu, bu)
    else ([], b3)
  let (t4, b5) :=
    if b4.mode &&& BindingMode.toView ≠ 0 then
      ([Ev.connectSource], b4.connectExpr flags (some scope))
    else ([], b4)
  let (t5, b6) :=
    if b5.mode &&& BindingMode.fromView ≠ 0 then
      match b5.targetObserver with
      | some tob5 =>
          let tob5' : TargetObs :=
            { tob5 with subscribed := true, idFlags := tob5.idFlags ||| 32 }
          ([Ev.subscribeTarget], { b5 with targetObserver := some tob5' })
      | none => ([Ev.subscribeTarget], b5)
    else ([], b5)
  (t1 ++ t2 ++ t3 ++ t4 ++ t5,
   { b6 with state := jsAndNot (b6.state ||| 4) 1 })

/-- `$bind(flags, scope, part)`: when already bound, return immediately if
the scope is the current one, otherwise `$unbind(flags | fromBind)` first. -/
def Binding.bind (b : Binding) (flags0 scope : Nat) (part : Option Nat) :
    List Ev × Binding :=
  if b.state &&& 4 ≠ 0 then
    if b.scope = some scope then ([], b)
    else
      let (tu, bu) := b.unbind (flags0 ||| 4096)
      let (tb, bb) := bu.bindCore flags0 scope part
      (tu ++ tb, bb)
  else b.bindCore flags0 scope part

/-- `CollectionLengthObserver` (src/unnamed/part_001): observes the `length`
of an array; `currentValue` caches it. -/
structure CollectionLengthObserver where
  objLength : Nat
  currentValue : Nat
deriving DecidableEq, Repr

/-- `CollectionLengthObserver.getValue()` returns `this.obj.length`. -/
def CollectionLengthObserver.getValue (o : CollectionLengthObserver) : Nat :=
  o.objLength

/-- `CollectionLengthObserver.setValue(newValue, flags)`: when the new value
differs from `currentValue`, store it and `callSubscribers(newValue,
currentValue, flags | updateTargetInstance)`; the first component is the
`callSubscribers` payload, `none` when no notification happened. -/
def CollectionLengthObserver.setValue (o : CollectionLengthObserver)
    (newValue flags : Nat) : Option (Nat × Nat × Nat) × CollectionLengthObserver :=
  let currentValue := o.currentValue
  if newValue ≠ currentValue then
    (some (newValue, currentValue, flags ||| 16), { o with currentValue := newValue })
  else (none, o)

/-- An element of the array passed to `resolveAll`: either a plain value
(`void`) or a `Promise`, identified by a `Nat` id. -/
inductive MaybePromise where
  | value
  | promise (id : Nat)
deriving DecidableEq, Repr

/-- `maybePromise instanceof Promise`. -/
def MaybePromise.isPromise : MaybePromise → Bool
  | .value => false
  | .promise _ => true

/-- The result of `resolveAll`: `undefined`, the single promise itself, or
`Promise.all` over the collected promises in order. -/
inductive ResolveAllResult where
  | undef
  | one (id : Nat)
  | all (ids : List Nat)
deriving DecidableEq, Repr

/-- The promise ids collected by `resolveAll`'s loop, in order. -/
def promisesOf (l : List MaybePromise) : List Nat :=
  l.filterMap (fun m => match m with | .promise i => some i | .value => none)

/-- `resolveAll(maybePromises)` (src/packages/router/src/util.ts): collect the
promise elements; return `undefined` when there are none, the promise itself
when there is exactly one, `Promise.all` over them otherwise. -/
def resolveAll (l : List MaybePromise) : ResolveAllResult :=
  match promisesOf l with
  | [] => ResolveAllResult.undef
  | [p] => ResolveAllResult.one p
  | ps => ResolveAllResult.all ps

/-- Recognizer for `updateTarget` events. -/
def Ev.isUpdateTarget : Ev → Bool
  | .updateTarget _ _ => true
  | _ => false

/-- Recognizer for `updateSource` events. -/
def Ev.isUpdateSource : Ev → Bool
  | .updateSource _ _ => true
  | _ => false

/-- Recognizer for `unobserve` events. -/
def Ev.isUnobserve : Ev → Bool
  | .unobserve _ => true
  | _ => false

/-- A sample source expression used to instantiate theorems: not an
`AccessScope` (`kind = 0`), evaluating to `7`, with dependencies `[3, 4]`. -/
def sampleExpr : Expr :=
  { kind := 0, eval := fun _ _ => 7, deps := fun _ _ => [3, 4],
    hasBind := false, hasUnbind := false }

/-- A sample accessor (no `bind`/`unbind`/`subscribe` methods). -/
def sampleAccessor : TargetObs :=
  { currentValue := 0, hasBindM := false, hasUnbindM := false,
    hasSubscribe := false, subscribed := false, idFlags := 0 }

/-- A sample full observer (has `bind`, `unbind` and `subscribe`). -/
def sampleObserver : TargetObs :=
  { currentValue := 0, hasBindM := true, hasUnbindM := true,
    hasSubscribe := true, subscribed := false, idFlags := 0 }

/-- A sample to-view binding, freshly constructed. -/
def sampleToView : Binding := Binding.init sampleExpr 2 sampleObserver sampleAccessor

/-- A sample from-view binding, freshly constructed. -/
def sampleFromView : Binding := Binding.init sampleExpr 4 sampleObserver sampleAccessor

/-- A sample one-time binding, freshly constructed. -/
def sampleOneTime : Binding := Binding.init sampleExpr 1 sampleObserver sampleAccessor

/-- A sample two-way binding, freshly constructed. -/
def sampleTwoWay : Binding := Binding.init sampleExpr 6 sampleObserver sampleAccessor

/-- The target observer after `$unbind` released the subscription. -/
def TargetObs.afterUnsub (tob : TargetObs) : TargetObs :=
  if tob.hasSubscribe then
    { tob with subscribed := false, idFlags := jsAndNot tob.idFlags 32 }
  else tob

/-- The to-view sample binding after `$bind(0, scope 1, no part)`. -/
def boundToView : Binding := (sampleToView.bind 0 1 none).2

/-- The target accessor held by `boundToView` (initial value written). -/
def boundToViewObs : TargetObs :=
  { currentValue := 7, hasBindM := false, hasUnbindM := false,
    hasSubscribe := false, subscribed := false, idFlags := 0 }

/-- The from-view sample binding after `$bind(0, scope 1, no part)`. -/
def boundFromView : Binding := (sampleFromView.bind 0 1 none).2

/-- Some slot records observer `d` stamped with version `ver`. -/
def hasVer (obs : List (Nat × Nat)) (ver d : Nat) : Prop :=
  ∃ p ∈ obs, p.1 = d ∧ p.2 = ver

/-- The value `handleChange` compares against the target's current value in
the target-update direction: re-evaluated unless the expression is an
`AccessScope` with at most one observer slot. -/
def hcNewValue (b : Binding) (nv f0 : Nat) : Nat :=
  if b.sourceExpression.kind ≠ 10082 ∨ b.observers.length > 1 then
    b.sourceExpression.eval (f0 ||| b.persistentFlags) b.scope
  else nv

/-- The binding state after the conditional target write of `handleChange`. -/
def hcMid (b : Binding) (tob : TargetObs) (nv f0 : Nat) : Binding :=
  if hcNewValue b nv f0 ≠ tob.currentValue then
    let tob' : TargetObs := { tob with currentValue := hcNewValue b nv f0 }
    { b with targetObserver := some tob' }
  else b

/-- The binding state after the full target-update cycle of `handleChange`
(the connect / unobserve cycle runs unless the mode includes `oneTime`). -/
def hcFinal (b : Binding) (tob : TargetObs) (nv f0 : Nat) : Binding :=
  let m := hcMid b tob nv f0
  if b.mode &&& BindingMode.oneTime = 0 then
    { m with
        version := b.version + 1,
        observers := unobserveSlots false (b.version + 1)
          ((b.sourceExpression.deps (f0 ||| b.persistentFlags) b.scope).foldl
            (addObserver (b.version + 1)) b.observers) }
  else m

/-- A bound to-view binding whose target accessor still holds the stale
value 0 while the source evaluates to 7. -/
def boundStale : Binding :=
  { boundToView with targetObserver := some sampleAccessor }

/-- Recognizer for `evalSource` events. -/
def Ev.isEvalSource : Ev → Bool
  | .evalSource => true
  | _ => false

/-- The one-time sample binding after `$bind(0, scope 1, no part)`. -/
def boundOneTime : Binding := (sampleOneTime.bind 0 1 none).2

/-- An external call into the binding's public lifecycle interface. -/
inductive BOp where
  | bindOp (flags scope : Nat) (part : Option Nat)
  | unbindOp (flags : Nat)
  | changeOp (newValue previousValue flags : Nat)

/-- Apply one call; a thrown `handleChange` error leaves the state as it was
at the throw point (no mutation precedes either throw site). -/
def runOp (b : Binding) (op : BOp) : Binding :=
  match op with
  | .bindOp f s p => (b.bind f s p).2
  | .unbindOp f => (b.unbind f).2
  | .changeOp nv pv f =>
      match b.handleChange nv pv f with
      | .ok (_, b') => b'
      | .error _ => b

/-- Apply a sequence of calls. -/
def runOps (b : Binding) (ops : List BOp) : Binding := ops.foldl runOp b

/-- The scope invariant: a scope is held exactly while bound, and a bound
binding has a target observer. -/
def ScopeInv (b : Binding) : Prop :=
  (b.state &&& 4 = 0 → b.scope = none) ∧
  (b.state &&& 4 ≠ 0 → b.scope.isSome ∧ b.targetObserver.isSome)

theorem jsAndNot_six_and_four (s : Nat) : jsAndNot s 6 &&& 4 = 0 := by
  unfold jsAndNot
  rw [Nat.and_assoc]
  have h : (4294967295 ^^^ 6) &&& 4 = 0 := by decide
  rw [h, Nat.and_zero]

theorem jsAndNot_one_or_four (s : Nat) : jsAndNot (s ||| 4) 1 &&& 4 ≠ 0 := by
  unfold jsAndNot
  rw [Nat.and_assoc]
  have h : (4294967295 ^^^ 1) &&& 4 = 4 := by decide
  rw [h]
  intro hzero
  have h2 : ((s ||| 4) &&& 4).testBit 2 = Nat.testBit 0 2 := by rw [hzero]
  rw [Nat.testBit_and, Nat.testBit_or] at h2
  have h4 : Nat.testBit 4 2 = true := by decide
  have h0 : Nat.testBit 0 2 = false := by decide
  rw [h4, h0] at h2
  simp at h2

theorem and_two_ne_zero_of_three (x : Nat) (h : x &&& 2 ≠ 0) : x &&& 3 ≠ 0 := by
  intro h3
  apply h
  have : x &&& 2 = x &&& 3 &&& 2 := by
    rw [Nat.and_assoc]
    have h32 : (3 : Nat) &&& 2 = 2 := by decide
    rw [h32]
  rw [this, h3, Nat.zero_and]

theorem and_one_ne_zero_of_three (x : Nat) (h : x &&& 1 ≠ 0) : x &&& 3 ≠ 0 := by
  intro h3
  apply h
  have : x &&& 1 = x &&& 3 &&& 1 := by
    rw [Nat.and_assoc]
    have h31 : (3 : Nat) &&& 1 = 1 := by decide
    rw [h31]
  rw [this, h3, Nat.zero_and]

theorem unbind_not_bound (b : Binding) (f : Nat) (hb : b.state &&& 4 = 0) :
    b.unbind f = ([], b) := by
  unfold Binding.unbind
  rw [if_pos hb]

theorem unbind_bound (b : Binding) (f : Nat) (tob : TargetObs)
    (hb : b.state &&& 4 ≠ 0) (hto : b.targetObserver = some tob) :
    b.unbind f =
      ((if b.sourceExpression.hasUnbind then [Ev.exprUnbind] else []) ++
         (if tob.hasUnbindM then [Ev.obsUnbind] else []) ++
         (if tob.hasSubscribe then [Ev.unsubscribeTarget] else []) ++
         [Ev.unobserve true],
       { b with state := jsAndNot (b.state ||| 2) 6,
                persistentFlags := 0,
                scope := none,
                targetObserver := some tob.afterUnsub,
                observers := [] }) := by
  unfold Binding.unbind
  rw [if_neg hb]
  simp only [hto, TargetObs.afterUnsub, unobserveSlots]
  by_cases hs : tob.hasSubscribe <;> simp [hs]

theorem unbind_clears_bound_bit (b : Binding) (f : Nat) (tob : TargetObs)
    (hto : b.targetObserver = some tob) :
    (b.unbind f).2.state &&& 4 = 0 := by
  by_cases hb : b.state &&& 4 = 0
  · rw [unbind_not_bound b f hb]
    exact hb
  · rw [unbind_bound b f tob hb hto]
    exact jsAndNot_six_and_four _

/-- C9: a `PropertyBinding` that is not in the bound state returns from
`handleChange` immediately: no call is made (empty event trace), the source
expression is not evaluated, neither target nor source is written, and the
binding is unchanged. -/
theorem handleChange_noop_when_unbound (b : Binding) (nv pv f : Nat)
    (hb : b.state &&& 4 = 0) :
    b.handleChange nv pv f = Except.ok ([], b) := by
  unfold Binding.handleChange
  rw [if_pos hb]

/-- Witness for C9 at the freshly constructed to-view sample binding. -/
theorem handleChange_noop_when_unbound_witness :
    sampleToView.state &&& 4 = 0 ∧
    sampleToView.handleChange 9 0 16 = Except.ok ([], sampleToView) :=
  ⟨by decide, handleChange_noop_when_unbound sampleToView 9 0 16 (by decide)⟩

/-- C2: `$unbind` on an unbound binding returns immediately with no state
change and no release; `$unbind` twice equals `$unbind` once; and after
`$unbind` from a bound state the scope is cleared, the persistent flags are
reset, all observer slots are released, and the target-observer
subscription, when the observer has one, is removed. -/
theorem unbind_idempotent_and_clears :
    (∀ (b : Binding) (f : Nat), b.state &&& 4 = 0 → b.unbind f = ([], b)) ∧
    (∀ (b : Binding) (f g : Nat) (tob : TargetObs),
       b.targetObserver = some tob →
       (b.unbind f).2.unbind g = ([], (b.unbind f).2)) ∧
    (∀ (b : Binding) (f : Nat) (tob : TargetObs),
       b.state &&& 4 ≠ 0 → b.targetObserver = some tob →
       (b.unbind f).2.scope = none ∧
       (b.unbind f).2.persistentFlags = 0 ∧
       (b.unbind f).2.observers = [] ∧
       ∀ tob', (b.unbind f).2.targetObserver = some tob' →
         tob'.hasSubscribe = true → tob'.subscribed = false) := by
  refine ⟨fun b f hb => unbind_not_bound b f hb, ?_, ?_⟩
  · intro b f g tob hto
    exact unbind_not_bound _ g (unbind_clears_bound_bit b f tob hto)
  · intro b f tob hb hto
    rw [unbind_bound b f tob hb hto]
    refine ⟨rfl, rfl, rfl, ?_⟩
    intro tob' htob' hsub
    obtain rfl : tob.afterUnsub = tob' := by
      simpa using htob'
    unfold TargetObs.afterUnsub at hsub ⊢
    by_cases hs : tob.hasSubscribe
    · simp [hs]
    · rw [if_neg hs] at hsub
      exact absurd hsub hs

/-- Witness for C2 at the bound to-view sample binding. -/
theorem unbind_idempotent_and_clears_witness :
    boundToView.state &&& 4 ≠ 0 ∧
    boundToView.targetObserver = some boundToViewObs ∧
    ((boundToView.unbind 8).2.unbind 8 = ([], (boundToView.unbind 8).2)) ∧
    ((boundToView.unbind 8).2.scope = none ∧
     (boundToView.unbind 8).2.persistentFlags = 0 ∧
     (boundToView.unbind 8).2.observers = [] ∧
     ∀ tob', (boundToView.unbind 8).2.targetObserver = some tob' →
       tob'.hasSubscribe = true → tob'.subscribed = false) :=
  ⟨by decide, by decide,
   unbind_idempotent_and_clears.2.1 boundToView 8 8 boundToViewObs (by decide),
   unbind_idempotent_and_clears.2.2 boundToView 8 boundToViewObs (by decide) (by decide)⟩

/-- The promise elements survive filtering by `isPromise` unchanged. -/
theorem promisesOf_filter (l : List MaybePromise) :
    promisesOf (l.filter MaybePromise.isPromise) = promisesOf l := by
  induction l with
  | nil => rfl
  | cons x xs ih =>
      cases x <;> simp [promisesOf, MaybePromise.isPromise, List.filter] at ih ⊢ <;>
        exact ih

/-- C10: `resolveAll` returns `undefined` when no element is a promise, the
single promise itself when exactly one element is a promise, and
`Promise.all` over exactly the promise elements, in order, when there are
two or more; non-promise elements never affect the result. -/
theorem resolveAll_cases (l : List MaybePromise) :
    (promisesOf l = [] → resolveAll l = ResolveAllResult.undef) ∧
    (∀ p, promisesOf l = [p] → resolveAll l = ResolveAllResult.one p) ∧
    (2 ≤ (promisesOf l).length →
       resolveAll l = ResolveAllResult.all (promisesOf l)) ∧
    resolveAll l = resolveAll (l.filter MaybePromise.isPromise) := by
  refine ⟨?_, ?_, ?_, ?_⟩
  · intro h
    unfold resolveAll
    rw [h]
  · intro p h
    unfold resolveAll
    rw [h]
  · intro h
    unfold resolveAll
    match hp : promisesOf l with
    | [] => rw [hp] at h; simp at h
    | [p] => rw [hp] at h; simp at h
    | p :: q :: ps => rfl
  · unfold resolveAll
    rw [promisesOf_filter]

/-- Witness for C10 on concrete lists with zero, one and two promises. -/
theorem resolveAll_cases_witness :
    (promisesOf [MaybePromise.value] = [] ∧
       resolveAll [MaybePromise.value] = ResolveAllResult.undef) ∧
    (promisesOf [MaybePromise.value, MaybePromise.promise 5] = [5] ∧
       resolveAll [MaybePromise.value, MaybePromise.promise 5] =
         ResolveAllResult.one 5) ∧
    (2 ≤ (promisesOf [MaybePromise.promise 5, MaybePromise.value,
            MaybePromise.promise 6]).length ∧
       resolveAll [MaybePromise.promise 5, MaybePromise.value,
            MaybePromise.promise 6] = ResolveAllResult.all [5, 6]) :=
  ⟨⟨by decide, (resolveAll_cases _).1 (by decide)⟩,
   ⟨by decide, (resolveAll_cases _).2.1 5 (by decide)⟩,
   ⟨by decide, (resolveAll_cases _).2.2.1 (by decide)⟩⟩

/-- Membership in a conditionally produced event list. -/
theorem mem_ite_nil {α : Type} (a : α) (c : Prop) [Decidable c] (l : List α) :
    (a ∈ if c then l else []) ↔ c ∧ a ∈ l := by
  split <;> simp_all

/-- C3: `$bind` on a binding already bound to the same scope returns
immediately and changes nothing; `$bind` on a binding bound to a different
scope behaves exactly as `$unbind` with the `fromBind` flag followed by the
`$bind`. -/
theorem bind_rebind :
    (∀ (b : Binding) (f s : Nat) (p : Option Nat),
       b.state &&& 4 ≠ 0 → b.scope = some s → b.bind f s p = ([], b)) ∧
    (∀ (b : Binding) (f s : Nat) (p : Option Nat) (tob : TargetObs),
       b.state &&& 4 ≠ 0 → b.scope ≠ some s → b.targetObserver = some tob →
       b.bind f s p =
         ((b.unbind (f ||| 4096)).1 ++ ((b.unbind (f ||| 4096)).2.bind f s p).1,
          ((b.unbind (f ||| 4096)).2.bind f s p).2)) := by
  constructor
  · intro b f s p hb hs
    simp [Binding.bind, hb, hs]
  · intro b f s p tob hb hs hto
    have hub := unbind_clears_bound_bit b (f ||| 4096) tob hto
    conv_lhs => rw [Binding.bind]
    rw [if_pos hb, if_neg hs]
    conv_rhs => rw [Binding.bind]
    rw [if_neg (by simp [hub])]

/-- Witness for C3: re-binding the bound to-view sample binding to scope 2. -/
theorem bind_rebind_witness :
    boundToView.state &&& 4 ≠ 0 ∧ boundToView.scope ≠ some 2 ∧
    boundToView.bind 0 2 none =
      ((boundToView.unbind (0 ||| 4096)).1 ++
         ((boundToView.unbind (0 ||| 4096)).2.bind 0 2 none).1,
       ((boundToView.unbind (0 ||| 4096)).2.bind 0 2 none).2) :=
  ⟨by decide, by decide,
   bind_rebind.2 boundToView 0 2 none boundToViewObs (by decide) (by decide) (by decide)⟩

/-- C8: on `$bind`, the source expression is connected (source-to-target
subscriptions) iff the mode includes `toView`; the target observer is
subscribed (target-to-source subscriptions) iff the mode includes
`fromView`; the source is evaluated and the initial target value written iff
the mode includes `toView` or `oneTime`; and a two-way mode installs both
direction's subscriptions. -/
theorem bind_mode_directions (b : Binding) (f s : Nat) (p : Option Nat)
    (hb : b.state &&& 4 = 0) :
    (Ev.connectSource ∈ (b.bind f s p).1 ↔ b.mode &&& BindingMode.toView ≠ 0) ∧
    (Ev.subscribeTarget ∈ (b.bind f s p).1 ↔ b.mode &&& BindingMode.fromView ≠ 0) ∧
    ((Ev.evalSource ∈ (b.bind f s p).1 ∧ (b.bind f s p).1.any Ev.isUpdateTarget = true)
       ↔ b.mode &&& toViewOrOneTime ≠ 0) ∧
    (b.mode = BindingMode.toView ||| BindingMode.fromView →
       Ev.connectSource ∈ (b.bind f s p).1 ∧ Ev.subscribeTarget ∈ (b.bind f s p).1) := by
  have hbind : b.bind f s p = b.bindCore f s p := by
    simp [Binding.bind, hb]
  rw [hbind]
  have h1 : Ev.connectSource ∈ (b.bindCore f s p).1 ↔
      b.mode &&& BindingMode.toView ≠ 0 := by
    rcases hto : b.targetObserver with _ | tob <;>
      by_cases h3 : b.mode &&& toViewOrOneTime ≠ 0 <;>
      by_cases h2 : b.mode &&& BindingMode.toView ≠ 0 <;>
      by_cases h4 : b.mode &&& BindingMode.fromView ≠ 0 <;>
      simp [Binding.bindCore, hto, h2, h3, h4, mem_ite_nil,
        Binding.updateTarget, Binding.connectExpr]
  have h2 : Ev.subscribeTarget ∈ (b.bindCore f s p).1 ↔
      b.mode &&& BindingMode.fromView ≠ 0 := by
    rcases hto : b.targetObserver with _ | tob <;>
      by_cases h3 : b.mode &&& toViewOrOneTime ≠ 0 <;>
      by_cases h2 : b.mode &&& BindingMode.toView ≠ 0 <;>
      by_cases h4 : b.mode &&& BindingMode.fromView ≠ 0 <;>
      simp [Binding.bindCore, hto, h2, h3, h4, mem_ite_nil,
        Binding.updateTarget, Binding.connectExpr]
  have h3 : (Ev.evalSource ∈ (b.bindCore f s p).1 ∧
      (b.bindCore f s p).1.any Ev.isUpdateTarget = true) ↔
      b.mode &&& toViewOrOneTime ≠ 0 := by
    rcases hto : b.targetObserver with _ | tob <;>
      by_cases h3 : b.mode &&& toViewOrOneTime ≠ 0 <;>
      by_cases h2 : b.mode &&& BindingMode.toView ≠ 0 <;>
      by_cases h4 : b.mode &&& BindingMode.fromView ≠ 0 <;>
      simp [Binding.bindCore, hto, h2, h3, h4, mem_ite_nil,
        Binding.updateTarget, Binding.connectExpr, Ev.isUpdateTarget]
  refine ⟨h1, h2, h3, ?_⟩
  intro hm
  refine ⟨h1.2 ?_, h2.2 ?_⟩ <;> rw [hm] <;> decide

/-- Witness for C8 at the fresh two-way sample binding. -/
theorem bind_mode_directions_witness :
    sampleTwoWay.state &&& 4 = 0 ∧
    sampleTwoWay.mode = BindingMode.toView ||| BindingMode.fromView ∧
    (Ev.connectSource ∈ (sampleTwoWay.bind 0 1 none).1 ∧
     Ev.subscribeTarget ∈ (sampleTwoWay.bind 0 1 none).1) :=
  ⟨by decide, by decide,
   (bind_mode_directions sampleTwoWay 0 1 none (by decide)).2.2.2 (by decide)⟩

theorem hasVer_addObserver (ver : Nat) (obs : List (Nat × Nat)) (d0 d : Nat) :
    hasVer (addObserver ver obs d0) ver d ↔ d = d0 ∨ hasVer obs ver d := by
  unfold addObserver
  by_cases hmem : d0 ∈ obs.map Prod.fst
  · rw [if_pos hmem]
    constructor
    · rintro ⟨p, hp, hd, hv⟩
      obtain ⟨a, ha, rfl⟩ := List.mem_map.1 hp
      by_cases h : a.1 = d0
      · left
        rw [if_pos h] at hd
        simp only at hd
        rw [← hd, h]
      · right
        rw [if_neg h] at hd hv
        exact ⟨a, ha, hd, hv⟩
    · intro hcase
      rcases hcase with hdd | ⟨p, hp, hd, hv⟩
      · obtain ⟨a, ha, hfst⟩ := List.mem_map.1 hmem
        refine ⟨(a.1, ver), ?_, ?_, rfl⟩
        · have he : (if a.1 = d0 then (a.1, ver) else a) = (a.1, ver) := if_pos hfst
          exact he ▸ List.mem_map_of_mem _ ha
        · rw [hdd]
          exact hfst
      · refine ⟨if p.1 = d0 then (p.1, ver) else p, List.mem_map_of_mem _ hp, ?_, ?_⟩
        · by_cases h : p.1 = d0
          · rw [if_pos h]
            exact hd
          · rw [if_neg h]
            exact hd
        · by_cases h : p.1 = d0
          · rw [if_pos h]
          · rw [if_neg h]
            exact hv
  · rw [if_neg hmem]
    unfold hasVer
    constructor
    · rintro ⟨p, hp, hd, hv⟩
      rcases List.mem_append.1 hp with h | h
      · exact Or.inr ⟨p, h, hd, hv⟩
      · left
        have : p = (d0, ver) := by simpa using h
        rw [this] at hd
        exact hd.symm
    · rintro (rfl | ⟨p, hp, hd, hv⟩)
      · exact ⟨(d, ver), List.mem_append.2 (Or.inr (by simp)), rfl, rfl⟩
      · exact ⟨p, List.mem_append.2 (Or.inl hp), hd, hv⟩

theorem hasVer_connect (ver : Nat) (deps : List Nat) :
    ∀ (obs : List (Nat × Nat)) (d : Nat),
      hasVer (deps.foldl (addObserver ver) obs) ver d ↔
        d ∈ deps ∨ hasVer obs ver d := by
  induction deps with
  | nil => intro obs d; simp [List.foldl]
  | cons d0 ds ih =>
      intro obs d
      rw [List.foldl_cons, ih, hasVer_addObserver]
      simp [List.mem_cons]
      tauto

theorem mem_map_fst_of_hasVer {obs : List (Nat × Nat)} {ver d : Nat}
    (h : hasVer obs ver d) : d ∈ obs.map Prod.fst := by
  obtain ⟨p, hp, hd, _⟩ := h
  exact List.mem_map.2 ⟨p, hp, hd⟩

/-- Counterexample to C4 as stated: a from-view binding binds successfully
(it ends up in the bound state) yet the source expression is neither
evaluated nor connected, and no source-observation subscription exists
afterwards. -/
theorem bind_fromView_no_eval_connect :
    (sampleFromView.bind 0 1 none).2.state &&& 4 ≠ 0 ∧
    Ev.evalSource ∉ (sampleFromView.bind 0 1 none).1 ∧
    Ev.connectSource ∉ (sampleFromView.bind 0 1 none).1 ∧
    (sampleFromView.bind 0 1 none).2.observers = [] := by
  refine ⟨by decide, ?_, ?_, by decide⟩ <;> decide

/-- C4 (amended): for every `PropertyBinding` whose mode includes `toView`,
`$bind` from the unbound state evaluates and connects the source
expression, so that afterwards an observer slot exists for every dependency
of the evaluation. -/
theorem bind_toView_connects (b : Binding) (f s : Nat) (p : Option Nat)
    (hb : b.state &&& 4 = 0) (hm : b.mode &&& BindingMode.toView ≠ 0) :
    Ev.evalSource ∈ (b.bind f s p).1 ∧
    Ev.connectSource ∈ (b.bind f s p).1 ∧
    ∀ d ∈ b.sourceExpression.deps (f ||| 4) (some s),
      d ∈ (b.bind f s p).2.observers.map Prod.fst := by
  have hbind : b.bind f s p = b.bindCore f s p := by
    simp [Binding.bind, hb]
  rw [hbind]
  have h3 : b.mode &&& toViewOrOneTime ≠ 0 := by
    have := and_two_ne_zero_of_three b.mode hm
    simpa [toViewOrOneTime, BindingMode.toView, BindingMode.oneTime] using this
  have hobs : (b.bindCore f s p).2.observers =
      (b.sourceExpression.deps (f ||| 4) (some s)).foldl
        (addObserver b.version) b.observers := by
    rcases hto : b.targetObserver with _ | tob <;>
      by_cases h4 : b.mode &&& BindingMode.fromView ≠ 0 <;>
      simp [Binding.bindCore, hto, hm, h3, h4,
        Binding.updateTarget, Binding.connectExpr]
  refine ⟨?_, ?_, ?_⟩
  · rcases hto : b.targetObserver with _ | tob <;>
      by_cases h4 : b.mode &&& BindingMode.fromView ≠ 0 <;>
      simp [Binding.bindCore, hto, hm, h3, h4, mem_ite_nil,
        Binding.updateTarget, Binding.connectExpr]
  · rcases hto : b.targetObserver with _ | tob <;>
      by_cases h4 : b.mode &&& BindingMode.fromView ≠ 0 <;>
      simp [Binding.bindCore, hto, hm, h3, h4, mem_ite_nil,
        Binding.updateTarget, Binding.connectExpr]
  · intro d hd
    rw [hobs]
    exact mem_map_fst_of_hasVer
      ((hasVer_connect b.version _ b.observers d).2 (Or.inl hd))

/-- Witness for the amended C4 at the fresh to-view sample binding. -/
theorem bind_toView_connects_witness :
    sampleToView.state &&& 4 = 0 ∧
    sampleToView.mode &&& BindingMode.toView ≠ 0 ∧
    (Ev.evalSource ∈ (sampleToView.bind 0 1 none).1 ∧
     Ev.connectSource ∈ (sampleToView.bind 0 1 none).1 ∧
     ∀ d ∈ sampleToView.sourceExpression.deps (0 ||| 4) (some 1),
       d ∈ (sampleToView.bind 0 1 none).2.observers.map Prod.fst) :=
  ⟨by decide, by decide,
   bind_toView_connects sampleToView 0 1 none (by decide) (by decide)⟩

theorem handleChange_target_char (b : Binding) (nv pv f0 : Nat) (tob : TargetObs)
    (hb : ¬ b.state &&& 4 = 0) (hto : b.targetObserver = some tob)
    (h16 : (f0 ||| b.persistentFlags) &&& 16 > 0) :
    b.handleChange nv pv f0 =
      Except.ok
        ((if b.sourceExpression.kind ≠ 10082 ∨ b.observers.length > 1
            then [Ev.evalSource] else []) ++
         (if hcNewValue b nv f0 ≠ tob.currentValue
            then [Ev.updateTarget (hcNewValue b nv f0)
                   (f0 ||| b.persistentFlags ||| b.persistentFlags)] else []) ++
         (if b.mode &&& BindingMode.oneTime = 0
            then [Ev.connectSource, Ev.unobserve false] else []),
         hcFinal b tob nv f0) := by
  by_cases hre : b.sourceExpression.kind ≠ 10082 ∨ b.observers.length > 1 <;>
    by_cases hne : hcNewValue b nv f0 ≠ tob.currentValue <;>
    by_cases hot : b.mode &&& BindingMode.oneTime = 0 <;>
    simp only [Binding.handleChange, hcFinal, hcMid, hcNewValue,
      Binding.updateTarget, Binding.connectExpr, unobserveSlots,
      hto, if_neg hb, if_pos h16, hre, hne, hot, if_true, if_false,
      ite_true, ite_false, not_true, not_false_iff] at * <;>
    simp [hre, hne, hot, hto]

/-- C1: in the target-update direction of `handleChange`, `updateTarget` is
invoked iff the (re-evaluated) new value is unequal to the target
observer's current value, and when equal the target observer is left
unchanged; likewise `CollectionLengthObserver.setValue` notifies its
subscribers iff the new value differs from its stored `currentValue`. -/
theorem update_only_on_change :
    (∀ (b : Binding) (nv pv f0 : Nat) (tob : TargetObs),
       b.state &&& 4 ≠ 0 → b.targetObserver = some tob →
       (f0 ||| b.persistentFlags) &&& 16 > 0 →
       ∃ t b', b.handleChange nv pv f0 = Except.ok (t, b') ∧
         (t.any Ev.isUpdateTarget = true ↔ hcNewValue b nv f0 ≠ tob.currentValue) ∧
         (hcNewValue b nv f0 = tob.currentValue →
            b'.targetObserver = b.targetObserver)) ∧
    (∀ (o : CollectionLengthObserver) (nv fl : Nat),
       ((o.setValue nv fl).1.isSome ↔ nv ≠ o.currentValue) ∧
       (nv = o.currentValue → o.setValue nv fl = (none, o))) := by
  constructor
  · intro b nv pv f0 tob hb hto h16
    refine ⟨_, _, handleChange_target_char b nv pv f0 tob hb hto h16, ?_, ?_⟩
    · by_cases hne : hcNewValue b nv f0 ≠ tob.currentValue <;>
        by_cases hre : b.sourceExpression.kind ≠ 10082 ∨ b.observers.length > 1 <;>
        by_cases hot : b.mode &&& BindingMode.oneTime = 0 <;>
        simp [hne, hre, hot, Ev.isUpdateTarget]
    · intro heq
      by_cases hot : b.mode &&& BindingMode.oneTime = 0 <;>
        simp [hcFinal, hcMid, heq, hot]
  · intro o nv fl
    constructor
    · by_cases h : nv ≠ o.currentValue <;> simp [CollectionLengthObserver.setValue, h]
    · intro heq
      simp [CollectionLengthObserver.setValue, heq]

/-- Witness for C1: a bound binding with a stale target value (update fires)
and a length observer set to an unchanged and to a changed value. -/
theorem update_only_on_change_witness :
    (boundStale.state &&& 4 ≠ 0 ∧
     boundStale.targetObserver = some sampleAccessor ∧
     (16 ||| boundStale.persistentFlags) &&& 16 > 0) ∧
    (∃ t b', boundStale.handleChange 9 0 16 = Except.ok (t, b') ∧
       (t.any Ev.isUpdateTarget = true ↔
          hcNewValue boundStale 9 16 ≠ sampleAccessor.currentValue) ∧
       (hcNewValue boundStale 9 16 = sampleAccessor.currentValue →
          b'.targetObserver = boundStale.targetObserver)) ∧
    (((CollectionLengthObserver.mk 3 3).setValue 5 0).1.isSome ↔
       (5 : Nat) ≠ (CollectionLengthObserver.mk 3 3).currentValue) :=
  ⟨⟨by decide, by decide, by decide⟩,
   update_only_on_change.1 boundStale 9 0 16 sampleAccessor
     (by decide) (by decide) (by decide),
   (update_only_on_change.2 (CollectionLengthObserver.mk 3 3) 5 0).1⟩

theorem mem_map_fst_filter_ver (l : List (Nat × Nat)) (ver d : Nat) :
    d ∈ (l.filter (fun p => p.2 == ver)).map Prod.fst ↔ hasVer l ver d := by
  simp only [hasVer, List.mem_map, List.mem_filter, beq_iff_eq]
  constructor
  · rintro ⟨a, ⟨ha, hv⟩, hd⟩
    exact ⟨a, ha, hd, hv⟩
  · rintro ⟨a, ha, hd, hv⟩
    exact ⟨a, ⟨ha, hv⟩, hd⟩

/-- C7: for a bound non-one-time binding, the target-update cycle of
`handleChange` increments the version, re-connects the source expression
and then drops stale slots, so that afterwards the observer slots hold
exactly the dependencies of the current evaluation, all stamped with the
new version. -/
theorem reconnect_discipline (b : Binding) (nv pv f0 : Nat) (tob : TargetObs)
    (hb : b.state &&& 4 ≠ 0) (hto : b.targetObserver = some tob)
    (h16 : (f0 ||| b.persistentFlags) &&& 16 > 0)
    (hot : b.mode &&& BindingMode.oneTime = 0)
    (hstamps : ∀ q ∈ b.observers, q.2 ≤ b.version) :
    ∃ t b', b.handleChange nv pv f0 = Except.ok (t, b') ∧
      b'.version = b.version + 1 ∧
      (∀ d, d ∈ b'.observers.map Prod.fst ↔
         d ∈ b.sourceExpression.deps (f0 ||| b.persistentFlags) b.scope) ∧
      (∀ q ∈ b'.observers, q.2 = b'.version) := by
  refine ⟨_, _, handleChange_target_char b nv pv f0 tob hb hto h16, ?_, ?_, ?_⟩
  · simp [hcFinal, hot]
  · intro d
    simp only [hcFinal, hot, if_true, ite_true, unobserveSlots, Bool.false_eq_true,
      if_false, ite_false]
    rw [mem_map_fst_filter_ver, hasVer_connect]
    constructor
    · rintro (h | ⟨q, hq, _, hv⟩)
      · exact h
      · have := hstamps q hq
        omega
    · exact Or.inl
  · intro q hq
    simp only [hcFinal, hot, if_true, ite_true, unobserveSlots, Bool.false_eq_true,
      if_false, ite_false] at hq ⊢
    rw [List.mem_filter] at hq
    have := hq.2
    simpa using this

/-- Witness for C7 at the bound to-view sample binding with stale slots. -/
theorem reconnect_discipline_witness :
    (boundToView.state &&& 4 ≠ 0 ∧
     boundToView.targetObserver = some boundToViewObs ∧
     (16 ||| boundToView.persistentFlags) &&& 16 > 0 ∧
     boundToView.mode &&& BindingMode.oneTime = 0 ∧
     (∀ q ∈ boundToView.observers, q.2 ≤ boundToView.version)) ∧
    (∃ t b', boundToView.handleChange 9 0 16 = Except.ok (t, b') ∧
       b'.version = boundToView.version + 1 ∧
       (∀ d, d ∈ b'.observers.map Prod.fst ↔
          d ∈ boundToView.sourceExpression.deps
                (16 ||| boundToView.persistentFlags) boundToView.scope) ∧
       (∀ q ∈ b'.observers, q.2 = b'.version)) :=
  ⟨⟨by decide, by decide, by decide, by decide, by decide⟩,
   reconnect_discipline boundToView 9 0 16 boundToViewObs
     (by decide) (by decide) (by decide) (by decide) (by decide)⟩

/-- C5: a one-time binding's `$bind` evaluates the source and writes the
target exactly once and installs no source-observation subscription, and
`handleChange` on a binding whose mode includes `oneTime` never runs the
version-increment / connect / unobserve cycle. -/
theorem oneTime_disconnects :
    (∀ (b : Binding) (f s : Nat) (p : Option Nat),
       b.mode = BindingMode.oneTime → b.state &&& 4 = 0 →
       (b.bind f s p).1.countP Ev.isEvalSource = 1 ∧
       (b.bind f s p).1.countP Ev.isUpdateTarget = 1 ∧
       Ev.connectSource ∉ (b.bind f s p).1 ∧
       (b.bind f s p).2.observers = b.observers) ∧
    (∀ (b : Binding) (nv pv f0 : Nat) (t : List Ev) (b' : Binding),
       b.mode &&& BindingMode.oneTime ≠ 0 →
       b.handleChange nv pv f0 = Except.ok (t, b') →
       Ev.connectSource ∉ t ∧ (∀ a, Ev.unobserve a ∉ t) ∧
       b'.version = b.version ∧ b'.observers = b.observers) := by
  constructor
  · intro b f s p hm hb
    have hbind : b.bind f s p = b.bindCore f s p := by
      simp [Binding.bind, hb]
    rw [hbind]
    rcases hto : b.targetObserver with _ | tob <;>
      by_cases hsb : b.sourceExpression.hasBind <;>
      by_cases hob : b.mode ≠ BindingMode.oneTime ∧
        (b.targetObserver.getD b.locAccessor).hasBindM <;>
      simp [Binding.bindCore, hm, hto, hsb, BindingMode.oneTime,
        BindingMode.toView, BindingMode.fromView, toViewOrOneTime,
        Binding.updateTarget, Binding.connectExpr, mem_ite_nil,
        List.countP_append, List.countP_cons, Ev.isEvalSource, Ev.isUpdateTarget]
  · intro b nv pv f0 t b' hm1 heq
    by_cases hb : b.state &&& 4 = 0
    · unfold Binding.handleChange at heq
      rw [if_pos hb] at heq
      simp only [Except.ok.injEq, Prod.mk.injEq] at heq
      obtain ⟨rfl, rfl⟩ := heq
      simp
    · by_cases h16 : (f0 ||| b.persistentFlags) &&& 16 > 0
      · rcases hto : b.targetObserver with _ | tob
        · unfold Binding.handleChange at heq
          rw [if_neg hb] at heq
          simp only [hto, if_pos h16] at heq
          cases heq
        · rw [handleChange_target_char b nv pv f0 tob hb hto h16] at heq
          simp only [Except.ok.injEq, Prod.mk.injEq] at heq
          obtain ⟨rfl, rfl⟩ := heq
          refine ⟨?_, ?_, ?_, ?_⟩
          · simp [mem_ite_nil, hm1]
          · intro a
            simp [mem_ite_nil, hm1]
          · simp only [hcFinal, hcMid, hm1, if_neg hm1]
            by_cases hne : hcNewValue b nv f0 = tob.currentValue <;> simp [hne]
          · simp only [hcFinal, hcMid, hm1, if_neg hm1]
            by_cases hne : hcNewValue b nv f0 = tob.currentValue <;> simp [hne]
      · by_cases h32 : (f0 ||| b.persistentFlags) &&& 32 > 0
        · unfold Binding.handleChange at heq
          rw [if_neg hb] at heq
          simp only [if_neg h16, if_pos h32] at heq
          by_cases hnv : nv ≠ b.sourceExpression.eval (f0 ||| b.persistentFlags) b.scope
          · rw [if_pos hnv] at heq
            simp only [Except.ok.injEq, Prod.mk.injEq] at heq
            obtain ⟨rfl, rfl⟩ := heq
            simp
          · rw [if_neg hnv] at heq
            simp only [Except.ok.injEq, Prod.mk.injEq] at heq
            obtain ⟨rfl, rfl⟩ := heq
            simp
        · unfold Binding.handleChange at heq
          rw [if_neg hb] at heq
          simp only [if_neg h16, if_neg h32] at heq
          simp at heq

/-- Witness for C5: the fresh and the bound one-time sample binding. -/
theorem oneTime_disconnects_witness :
    (sampleOneTime.mode = BindingMode.oneTime ∧ sampleOneTime.state &&& 4 = 0 ∧
     ((sampleOneTime.bind 0 1 none).1.countP Ev.isEvalSource = 1 ∧
      (sampleOneTime.bind 0 1 none).1.countP Ev.isUpdateTarget = 1 ∧
      Ev.connectSource ∉ (sampleOneTime.bind 0 1 none).1 ∧
      (sampleOneTime.bind 0 1 none).2.observers = sampleOneTime.observers)) ∧
    (boundOneTime.mode &&& BindingMode.oneTime ≠ 0 ∧
     (Ev.connectSource ∉ [Ev.evalSource] ∧ (∀ a, Ev.unobserve a ∉ [Ev.evalSource]) ∧
      boundOneTime.version = boundOneTime.version ∧
      boundOneTime.observers = boundOneTime.observers)) :=
  ⟨⟨by decide, by decide,
    oneTime_disconnects.1 sampleOneTime 0 1 none (by decide) (by decide)⟩,
   ⟨by decide,
    oneTime_disconnects.2 boundOneTime 9 0 16 [Ev.evalSource] boundOneTime
      (by decide) rfl⟩⟩

theorem bindCore_facts (b : Binding) (f s : Nat) (p : Option Nat) :
    (b.bindCore f s p).2.scope = some s ∧
    (b.bindCore f s p).2.state &&& 4 ≠ 0 ∧
    (b.bindCore f s p).2.targetObserver.isSome := by
  rcases hto : b.targetObserver with _ | tob <;>
    by_cases h3 : b.mode &&& toViewOrOneTime ≠ 0 <;>
    by_cases h4 : b.mode &&& BindingMode.fromView ≠ 0 <;>
    by_cases h2 : b.mode &&& BindingMode.toView ≠ 0 <;>
    simp [Binding.bindCore, hto, h3, h4, h2, Binding.updateTarget,
      Binding.connectExpr, jsAndNot_one_or_four]

theorem scopeInv_bindCore (b : Binding) (f s : Nat) (p : Option Nat) :
    ScopeInv (b.bindCore f s p).2 := by
  obtain ⟨hs, hb, hto⟩ := bindCore_facts b f s p
  exact ⟨fun h0 => absurd h0 hb, fun _ => ⟨by rw [hs]; rfl, hto⟩⟩

theorem scopeInv_unbind (b : Binding) (f : Nat) (h : ScopeInv b) :
    ScopeInv (b.unbind f).2 := by
  by_cases hb : b.state &&& 4 = 0
  · rw [unbind_not_bound b f hb]
    exact h
  · obtain ⟨hsome, htosome⟩ := h.2 hb
    obtain ⟨tob, hto⟩ := Option.isSome_iff_exists.1 htosome
    rw [unbind_bound b f tob hb hto]
    refine ⟨fun _ => rfl, fun hb' => ?_⟩
    exact absurd (jsAndNot_six_and_four (b.state ||| 2)) hb'

theorem scopeInv_bind (b : Binding) (f s : Nat) (p : Option Nat)
    (h : ScopeInv b) : ScopeInv (b.bind f s p).2 := by
  unfold Binding.bind
  by_cases hb : b.state &&& 4 ≠ 0
  · rw [if_pos hb]
    by_cases hs : b.scope = some s
    · rw [if_pos hs]
      exact h
    · rw [if_neg hs]
      show ScopeInv ((b.unbind (f ||| 4096)).2.bindCore f s p).2
      exact scopeInv_bindCore _ f s p
  · rw [if_neg hb]
    exact scopeInv_bindCore b f s p

theorem handleChange_preserves (b : Binding) (nv pv f0 : Nat) (t : List Ev)
    (b' : Binding) (heq : b.handleChange nv pv f0 = Except.ok (t, b')) :
    b'.state = b.state ∧ b'.scope = b.scope ∧
      b'.targetObserver.isSome = b.targetObserver.isSome := by
  by_cases hb : b.state &&& 4 = 0
  · unfold Binding.handleChange at heq
    rw [if_pos hb] at heq
    simp only [Except.ok.injEq, Prod.mk.injEq] at heq
    obtain ⟨rfl, rfl⟩ := heq
    exact ⟨rfl, rfl, rfl⟩
  · by_cases h16 : (f0 ||| b.persistentFlags) &&& 16 > 0
    · rcases hto : b.targetObserver with _ | tob
      · unfold Binding.handleChange at heq
        rw [if_neg hb] at heq
        simp only [hto, if_pos h16] at heq
        cases heq
      · rw [handleChange_target_char b nv pv f0 tob hb hto h16] at heq
        simp only [Except.ok.injEq, Prod.mk.injEq] at heq
        obtain ⟨rfl, rfl⟩ := heq
        by_cases hot : b.mode &&& BindingMode.oneTime = 0 <;>
          by_cases hne : hcNewValue b nv f0 = tob.currentValue <;>
          simp [hcFinal, hcMid, hot, hne, hto]
    · by_cases h32 : (f0 ||| b.persistentFlags) &&& 32 > 0
      · unfold Binding.handleChange at heq
        rw [if_neg hb] at heq
        simp only [if_neg h16, if_pos h32] at heq
        by_cases hnv : nv ≠ b.sourceExpression.eval (f0 ||| b.persistentFlags) b.scope
        · rw [if_pos hnv] at heq
          simp only [Except.ok.injEq, Prod.mk.injEq] at heq
          obtain ⟨rfl, rfl⟩ := heq
          exact ⟨rfl, rfl, rfl⟩
        · rw [if_neg hnv] at heq
          simp only [Except.ok.injEq, Prod.mk.injEq] at heq
          obtain ⟨rfl, rfl⟩ := heq
          exact ⟨rfl, rfl, rfl⟩
      · unfold Binding.handleChange at heq
        rw [if_neg hb] at heq
        simp only [if_neg h16, if_neg h32] at heq
        simp at heq

theorem scopeInv_runOp (b : Binding) (op : BOp) (h : ScopeInv b) :
    ScopeInv (runOp b op) := by
  cases op with
  | bindOp f s p => exact scopeInv_bind b f s p h
  | unbindOp f => exact scopeInv_unbind b f h
  | changeOp nv pv f =>
      have hdef : runOp b (BOp.changeOp nv pv f) =
          (match b.handleChange nv pv f with
           | Except.ok (_, b') => b'
           | Except.error _ => b) := rfl
      rw [hdef]
      rcases hE : b.handleChange nv pv f with r | r
      · exact h
      · obtain ⟨t, b'⟩ := r
        obtain ⟨h1, h2, h3⟩ := handleChange_preserves b nv pv f t b' hE
        refine ⟨fun h0 => ?_, fun h0 => ?_⟩
        · rw [h2]
          exact h.1 (by rw [← h1]; exact h0)
        · have h0' : b.state &&& 4 ≠ 0 := by rw [← h1]; exact h0
          obtain ⟨ha, hb2⟩ := h.2 h0'
          exact ⟨by rw [h2]; exact ha, by rw [h3]; exact hb2⟩

theorem scopeInv_runOps (ops : List BOp) :
    ∀ b : Binding, ScopeInv b → ScopeInv (runOps b ops) := by
  induction ops with
  | nil => intro b h; exact h
  | cons op rest ih =>
      intro b h
      exact ih (runOp b op) (scopeInv_runOp b op h)

/-- C6: along every sequence of `$bind` / `$unbind` / `handleChange` calls
from a freshly constructed binding, the binding holds no scope while
unbound and exactly one scope while bound: it is never associated with two
scopes at once. -/
theorem single_scope_invariant (e : Expr) (mode : Nat) (locO locA : TargetObs)
    (ops : List BOp) :
    ((runOps (Binding.init e mode locO locA) ops).state &&& 4 = 0 →
       (runOps (Binding.init e mode locO locA) ops).scope = none) ∧
    ((runOps (Binding.init e mode locO locA) ops).state &&& 4 ≠ 0 →
       ∃! s, (runOps (Binding.init e mode locO locA) ops).scope = some s) := by
  have hinit : ScopeInv (Binding.init e mode locO locA) := by
    constructor
    · intro _
      rfl
    · intro h0
      exact absurd (by simp [Binding.init] : (Binding.init e mode locO locA).state &&& 4 = 0) h0
  have h := scopeInv_runOps ops (Binding.init e mode locO locA) hinit
  refine ⟨h.1, fun hb => ?_⟩
  obtain ⟨hs, _⟩ := h.2 hb
  obtain ⟨s, hval⟩ := Option.isSome_iff_exists.1 hs
  refine ⟨s, hval, fun y hy => ?_⟩
  rw [hval] at hy
  exact Option.some.inj hy.symm

/-- Witness for C6: after a single `$bind` to scope 1 the sample to-view
binding is bound and holds exactly one scope. -/
theorem single_scope_invariant_witness :
    (runOps (Binding.init sampleExpr 2 sampleObserver sampleAccessor)
        [BOp.bindOp 0 1 none]).state &&& 4 ≠ 0 ∧
    (∃! s, (runOps (Binding.init sampleExpr 2 sampleObserver sampleAccessor)
        [BOp.bindOp 0 1 none]).scope = some s) :=
  ⟨by decide,
   (single_scope_invariant sampleExpr 2 sampleObserver sampleAccessor
      [BOp.bindOp 0 1 none]).2 (by decide)⟩

end Aurelia

